import Mathlib

/-!
Shallow embedding of run_phone_mast_analysis_report.py.

The loader (csv.DictReader) is modelled by a Dataset: the header row plus an
ordered sequence of records, each record being the ordered association list
from column name to raw string field value, in file order.  Python float()
and int() are modelled on plain decimal strings (optional sign, digits,
optional fractional part), returning exact rationals / integers; Python
sorted(key=...) is modelled by Mathlib's stable insertionSort on
key-decorated lists; collections.Counter(...).items() is modelled by the
insertion-ordered (first-occurrence) count table; arrow date parsing and
formatting is modelled on the two fixed format strings used by the source,
with calendar-validity checking.
-/

namespace PhoneMast

/-- Value of a list of decimal digit characters read in base 10. -/
def decimalVal (cs : List Char) : Nat :=
  cs.foldl (fun n c => 10 * n + (c.toNat - 48)) 0

/-- All characters are decimal digits. -/
def allDigits (cs : List Char) : Bool :=
  cs.all Char.isDigit

/-- Exact value of a decimal literal: the rational num / 10 ^ exp, kept
unnormalized so that all arithmetic on it stays kernel-computable. -/
structure DecVal where
  num : ℤ
  exp : ℕ
deriving DecidableEq

/-- Rational value denoted by a DecVal. -/
def DecVal.toRat (d : DecVal) : ℚ :=
  (d.num : ℚ) / (10 : ℚ) ^ d.exp

/-- Value comparison of decimals by cross multiplication. -/
def DecVal.le (a b : DecVal) : Prop :=
  a.num * ((10 : ℤ) ^ b.exp) ≤ b.num * ((10 : ℤ) ^ a.exp)

instance : DecidableRel DecVal.le := fun a b =>
  inferInstanceAs (Decidable (a.num * ((10 : ℤ) ^ b.exp) ≤ b.num * ((10 : ℤ) ^ a.exp)))

/-- Exact addition of decimals. -/
def DecVal.add (a b : DecVal) : DecVal :=
  ⟨a.num * ((10 : ℤ) ^ b.exp) + b.num * ((10 : ℤ) ^ a.exp), a.exp + b.exp⟩

/-- The decimal zero, the start value of Python sum(). -/
def DecVal.zero : DecVal := ⟨0, 0⟩

/-- Embedding of Python float() restricted to plain decimal literals:
an optional sign, then digits with an optional single decimal point
(at least one digit overall).  Returns the exact decimal value, or
none when the string is not such a literal (Python raises ValueError). -/
def pyFloat (s : String) : Option DecVal :=
  let signed : ℤ × List Char :=
    match s.toList with
    | '-' :: t => (-1, t)
    | '+' :: t => (1, t)
    | t => (1, t)
  let ip := signed.2.takeWhile (fun c => c ≠ '.')
  match signed.2.dropWhile (fun c => c ≠ '.') with
  | [] =>
    if ip.isEmpty || !allDigits ip then none
    else some ⟨signed.1 * (decimalVal ip : ℤ), 0⟩
  | c :: fp =>
    if c == '.' && !(ip.isEmpty && fp.isEmpty) && allDigits ip && allDigits fp then
      some ⟨signed.1 * ((decimalVal ip : ℤ) * ((10 : ℤ) ^ fp.length) + (decimalVal fp : ℤ)),
            fp.length⟩
    else none

/-- Embedding of Python int() restricted to plain integer literals:
an optional sign then one or more digits; none otherwise. -/
def pyInt (s : String) : Option ℤ :=
  match s.toList with
  | '-' :: t => if t.isEmpty || !allDigits t then none else some (-(decimalVal t : ℤ))
  | '+' :: t => if t.isEmpty || !allDigits t then none else some ((decimalVal t : ℤ))
  | t => if t.isEmpty || !allDigits t then none else some ((decimalVal t : ℤ))

/-- One parsed csv row: the ordered mapping from column name to raw string
value produced by csv.DictReader (keys in header order). -/
def Record : Type := List (String × String)

instance : DecidableEq Record := inferInstanceAs (DecidableEq (List (String × String)))

/-- Field access row[key] on a DictReader row. -/
def Record.get (r : Record) (k : String) : String :=
  (((r.find? (fun p => p.1 == k)).map Prod.snd).getD "")

/-- Values view of a row, list(row.values()): field values in column order. -/
def Record.values (r : Record) : List String :=
  r.map Prod.snd

/-- The loaded csv file: fieldnames (the header row) and the data rows in
file order. -/
structure Dataset where
  headers : List String
  rows : List Record

/-- Numeric sort key of a record, float(row[Current Rent]). -/
def currentRentKey (r : Record) : Option DecVal :=
  pyFloat (Record.get r "Current Rent")

/-- Decorates every row with its numeric rent key; none as soon as any
row's Current Rent is not a decimal literal, as Python float() raises. -/
def rentKeyed (rows : List Record) : Option (List (DecVal × Record)) :=
  rows.mapM (fun r => (currentRentKey r).map (fun q => (q, r)))

/-- Ascending comparison on rent-decorated rows. -/
def rentPairLe (a b : DecVal × Record) : Prop := a.1.le b.1

/-- Descending comparison on rent-decorated rows (reverse=True). -/
def rentPairGe (a b : DecVal × Record) : Prop := b.1.le a.1

instance : DecidableRel rentPairLe := fun a b => inferInstanceAs (Decidable (a.1.le b.1))

instance : DecidableRel rentPairGe := fun a b => inferInstanceAs (Decidable (b.1.le a.1))

instance : IsTotal (DecVal × Record) rentPairLe :=
  ⟨fun a b => by
    unfold rentPairLe
    exact le_total (a.1.num * _) _⟩

instance : IsTrans (DecVal × Record) rentPairLe :=
  ⟨fun a b c hab hbc => by
    unfold rentPairLe DecVal.le at hab hbc ⊢
    have hb : (0 : ℤ) < 10 ^ b.1.exp := by positivity
    have h1 := mul_le_mul_of_nonneg_right hab (by positivity : (0 : ℤ) ≤ 10 ^ c.1.exp)
    have h2 := mul_le_mul_of_nonneg_right hbc (by positivity : (0 : ℤ) ≤ 10 ^ a.1.exp)
    have h3 : a.1.num * 10 ^ c.1.exp * 10 ^ b.1.exp ≤ c.1.num * 10 ^ a.1.exp * 10 ^ b.1.exp := by
      nlinarith
    exact le_of_mul_le_mul_right h3 hb⟩

/-- Embedding of read_and_sort_csv_data_by_current_rent: stable sort of the
rows by numeric Current Rent (Python sorted is a stable sort, modelled by
insertionSort); none when any row's rent fails to parse. -/
def read_and_sort_csv_data_by_current_rent (ds : Dataset) (descending : Bool) :
    Option (List Record) :=
  (rentKeyed ds.rows).map (fun keyed =>
    (if descending then keyed.insertionSort rentPairGe
     else keyed.insertionSort rentPairLe).map Prod.snd)

/-- Table-plus-headers result shape shared by the queries. -/
structure TableResult where
  table : List (List String)
  headers : List String
deriving DecidableEq

/-- Python list slicing data_set[:num_of_items] for an arbitrary int bound:
nonnegative n takes the first n elements, negative n drops the last n. -/
def pySliceTo {α : Type _} (l : List α) (n : ℤ) : List α :=
  if 0 ≤ n then l.take n.toNat else l.take (l.length - (-n).toNat)

/-- Projection of one row to the four Rent-Rank output columns, keeping the
original field strings. -/
def projectRentRow (r : Record) : List String :=
  [Record.get r "Property Name", Record.get r "Unit Name",
   Record.get r "Tenant Name", Record.get r "Current Rent"]

/-- Embedding of get_top_n_items_from_list_data. -/
def get_top_n_items_from_list_data (data_set : List Record) (num_of_items : ℤ) :
    TableResult :=
  { table := (pySliceTo data_set num_of_items).map projectRentRow,
    headers := ["Property Name", "Unit Name", "Tenant Name", "Current Rent"] }

/-- Result shape of the lease-years query: matched rows, the csv header
row, and the single-cell total rent (Python wraps the total as a list
holding one one-tuple). -/
structure LeaseYearsResult where
  table : List (List String)
  headers : List String
  total_rent : List (List DecVal)
deriving DecidableEq

/-- Integer filter key of a record, int(row[Lease Years]). -/
def leaseYearsKey (r : Record) : Option ℤ :=
  pyInt (Record.get r "Lease Years")

/-- Embedding of get_records_that_match_number_of_lease_years: the filter
evaluates int(row[Lease Years]) on every row (none on any failure), keeps
the rows whose value equals lease_years, tabulates their full value lists,
and sums float(row[Current Rent]) over the matched rows only. -/
def get_records_that_match_number_of_lease_years (ds : Dataset) (lease_years : ℤ) :
    Option LeaseYearsResult :=
  match ds.rows.mapM (fun r => (leaseYearsKey r).map (fun y => (y, r))) with
  | none => none
  | some keyed =>
    let matched_data := (keyed.filter (fun p => p.1 == lease_years)).map Prod.snd
    match matched_data.mapM currentRentKey with
    | none => none
    | some rents =>
      some { table := matched_data.map Record.values,
             headers := ds.headers,
             total_rent := [[rents.foldl DecVal.add DecVal.zero]] }

/-- First-occurrence-ordered list of the distinct elements of l, keeping a
list of values already seen. -/
def firstDedupAux (seen : List String) : List String → List String
  | [] => []
  | t :: rest =>
    if t ∈ seen then firstDedupAux seen rest
    else t :: firstDedupAux (t :: seen) rest

/-- Distinct values of l in order of first occurrence. -/
def firstDedup (l : List String) : List String :=
  firstDedupAux [] l

/-- Embedding of collections.Counter(l).items(): one pair per distinct
value, in insertion (first-occurrence) order, paired with its number of
occurrences in l. -/
def counterItems (l : List String) : List (String × ℕ) :=
  (firstDedup l).map (fun t => (t, l.count t))

/-- Result shape of the tenant census: tenant/count pairs plus headers. -/
structure TenantResult where
  table : List (String × ℕ)
  headers : List String
deriving DecidableEq

/-- Embedding of get_tenant_name_and_mast_count: Counter over the literal
Tenant Name strings in file order. -/
def get_tenant_name_and_mast_count (ds : Dataset) : TenantResult :=
  { table := counterItems (ds.rows.map (fun r => Record.get r "Tenant Name")),
    headers := ["Tenant Name", "Number of Masts"] }

/-- Calendar date as parsed by arrow: year, month, day. -/
structure ArrowDate where
  year : ℕ
  month : ℕ
  day : ℕ
deriving DecidableEq

/-- Date comparison used by arrow object comparison: lexicographic on
(year, month, day). -/
def ArrowDate.le (a b : ArrowDate) : Bool :=
  decide (a.year < b.year ∨ (a.year = b.year ∧
    (a.month < b.month ∨ (a.month = b.month ∧ a.day ≤ b.day))))

/-- Gregorian leap-year test. -/
def isLeapYear (y : ℕ) : Bool :=
  (y % 4 == 0 && y % 100 != 0) || y % 400 == 0

/-- Number of days of month m in year y. -/
def daysInMonth (y m : ℕ) : ℕ :=
  if m == 2 then (if isLeapYear y then 29 else 28)
  else if m == 4 || m == 6 || m == 9 || m == 11 then 30
  else 31

/-- Builds a date after checking calendar validity, as arrow rejects
out-of-range months and days. -/
def mkValidDate (y m d : ℕ) : Option ArrowDate :=
  if 1 ≤ m ∧ m ≤ 12 ∧ 1 ≤ d ∧ d ≤ daysInMonth y m then some ⟨y, m, d⟩ else none

/-- Splits a character list at every occurrence of sep, keeping empty
pieces, with the piece read so far carried reversed. -/
def splitFieldsAux (sep : Char) : List Char → List Char → List (List Char)
  | acc, [] => [acc.reverse]
  | acc, c :: rest =>
    if c == sep then acc.reverse :: splitFieldsAux sep [] rest
    else splitFieldsAux sep (c :: acc) rest

/-- Splits a character list on a separator character, like splitting a
string on a one-character separator. -/
def splitFields (sep : Char) (cs : List Char) : List (List Char) :=
  splitFieldsAux sep [] cs

/-- Month number of an abbreviated English month name. -/
def monthOfAbbrev : List Char → Option ℕ
  | ['J', 'a', 'n'] => some 1
  | ['F', 'e', 'b'] => some 2
  | ['M', 'a', 'r'] => some 3
  | ['A', 'p', 'r'] => some 4
  | ['M', 'a', 'y'] => some 5
  | ['J', 'u', 'n'] => some 6
  | ['J', 'u', 'l'] => some 7
  | ['A', 'u', 'g'] => some 8
  | ['S', 'e', 'p'] => some 9
  | ['O', 'c', 't'] => some 10
  | ['N', 'o', 'v'] => some 11
  | ['D', 'e', 'c'] => some 12
  | _ => none

/-- Embedding of arrow.get(s, "DD MMM YYYY"): two-digit day, abbreviated
month name and four-digit year separated by single spaces, checked for
calendar validity; none when the text does not match (arrow raises). -/
def parseDDMonYYYY (s : String) : Option ArrowDate :=
  match splitFields ' ' s.toList with
  | [d, mon, y] =>
    if d.length == 2 && allDigits d && y.length == 4 && allDigits y then
      match monthOfAbbrev mon with
      | some m => mkValidDate (decimalVal y) m (decimalVal d)
      | none => none
    else none
  | _ => none

/-- Embedding of arrow.get(s, "YYYY-MM-DD"): four-digit year, two-digit
month and day separated by hyphens, checked for calendar validity. -/
def parseYMD (s : String) : Option ArrowDate :=
  match splitFields '-' s.toList with
  | [y, m, d] =>
    if y.length == 4 && m.length == 2 && d.length == 2 &&
        allDigits y && allDigits m && allDigits d then
      mkValidDate (decimalVal y) (decimalVal m) (decimalVal d)
    else none
  | _ => none

/-- Zero-pads a number to two digits. -/
def pad2 (n : ℕ) : String :=
  if n < 10 then "0" ++ toString n else toString n

/-- Zero-pads a number to four digits. -/
def pad4 (n : ℕ) : String :=
  if n < 10 then "000" ++ toString n
  else if n < 100 then "00" ++ toString n
  else if n < 1000 then "0" ++ toString n
  else toString n

/-- Embedding of arrow formatting with "DD/MM/YYYY". -/
def formatDDMMYYYY (d : ArrowDate) : String :=
  pad2 d.day ++ "/" ++ pad2 d.month ++ "/" ++ pad4 d.year

/-- Error cases of the lease-window query, in the order the source can
raise them: a range bound failing to parse (checked first, for both
bounds), then a record date field failing to parse (checked for every
record, start then end date, in file order, before any filtering). -/
inductive MastErr where
  | badRangeBound : MastErr
  | badRecordDate : MastErr
deriving DecidableEq

instance {ε α : Type _} [DecidableEq ε] [DecidableEq α] : DecidableEq (Except ε α) :=
  fun a b =>
    match a, b with
    | Except.error e, Except.error f =>
      if h : e = f then isTrue (by rw [h]) else isFalse (by intro hc; cases hc; exact h rfl)
    | Except.error _, Except.ok _ => isFalse (by intro hc; cases hc)
    | Except.ok _, Except.error _ => isFalse (by intro hc; cases hc)
    | Except.ok x, Except.ok y =>
      if h : x = y then isTrue (by rw [h]) else isFalse (by intro hc; cases hc; exact h rfl)

/-- Parsed Lease Start Date field of a record. -/
def leaseStartOf (r : Record) : Option ArrowDate :=
  parseDDMonYYYY (Record.get r "Lease Start Date")

/-- Parsed Lease End Date field of a record. -/
def leaseEndOf (r : Record) : Option ArrowDate :=
  parseDDMonYYYY (Record.get r "Lease End Date")

/-- Parses both date fields of one record, pairing the parsed dates with
the record, as the conversion loop of the source does. -/
def parseRecordDates (r : Record) : Option (ArrowDate × ArrowDate × Record) :=
  match leaseStartOf r with
  | none => none
  | some s =>
    match leaseEndOf r with
    | none => none
    | some e => some (s, e, r)

/-- Output column list of the lease-window query. -/
def windowHeaders : List String :=
  ["Property Name", "Unit Name", "Tenant Name", "Lease Start Date",
   "Lease End Date", "Lease Years", "Current Rent"]

/-- Embedding of get_rental_data_for_lease_between_start_and_end_dates:
parse both range bounds (error first on failure), then parse both date
fields of every record, then keep the records whose lease start lies in
the closed range, projecting them to the seven output columns with both
dates reformatted to DD/MM/YYYY. -/
def get_rental_data_for_lease_between_start_and_end_dates (ds : Dataset)
    (lease_start_dt_range : String × String) : Except MastErr TableResult :=
  match parseYMD lease_start_dt_range.1 with
  | none => Except.error MastErr.badRangeBound
  | some d1 =>
    match parseYMD lease_start_dt_range.2 with
    | none => Except.error MastErr.badRangeBound
    | some d2 =>
      match ds.rows.mapM parseRecordDates with
      | none => Except.error MastErr.badRecordDate
      | some parsed =>
        let filter_data := parsed.filter (fun p => ArrowDate.le d1 p.1 && ArrowDate.le p.1 d2)
        Except.ok
          { table := filter_data.map (fun p =>
              [Record.get p.2.2 "Property Name", Record.get p.2.2 "Unit Name",
               Record.get p.2.2 "Tenant Name", formatDDMMYYYY p.1,
               formatDDMMYYYY p.2.1, Record.get p.2.2 "Lease Years",
               Record.get p.2.2 "Current Rent"]),
            headers := windowHeaders }

/-- The only state shared between query invocations in the source: the csv
file each query re-reads.  No query writes the file. -/
structure ProgState where
  csvFile : Dataset

/-- The lease-window query as a state transformer: it reads the shared csv
file and returns it unchanged, since the date mutation in the source hits
only the local rental_data list freshly built from the file and nothing is
written back. -/
def runWindowQuery (s : ProgState) (lease_start_dt_range : String × String) :
    Except MastErr TableResult × ProgState :=
  (get_rental_data_for_lease_between_start_and_end_dates s.csvFile lease_start_dt_range, s)

/-- Tenant Name strings of a dataset in file order. -/
def tenantNames (ds : Dataset) : List String :=
  ds.rows.map (fun r => Record.get r "Tenant Name")

/-- The records of a dataset whose Lease Years field parses to exactly Y,
in file order, as the specification describes the lease-duration match. -/
def matchedLeaseRows (ds : Dataset) (Y : ℤ) : List Record :=
  ds.rows.filter (fun r => leaseYearsKey r == some Y)

/-- Specification-side range test: the record's parsed Lease Start Date
lies in the closed range from d1 to d2. -/
def startInRange (d1 d2 : ArrowDate) (r : Record) : Bool :=
  match leaseStartOf r with
  | some st => ArrowDate.le d1 st && ArrowDate.le st d2
  | none => false

/-- Specification-side projection of a matched record to the seven output
columns of the lease-window query, with both dates rendered DD/MM/YYYY. -/
def windowSpecRow (r : Record) : List String :=
  [Record.get r "Property Name", Record.get r "Unit Name", Record.get r "Tenant Name",
   ((leaseStartOf r).map formatDDMMYYYY).getD "", ((leaseEndOf r).map formatDDMMYYYY).getD "",
   Record.get r "Lease Years", Record.get r "Current Rent"]

/-- Projection of a date-decorated record to the seven output columns of
the lease-window query, as the code builds a table row. -/
def windowCodeRow (p : ArrowDate × ArrowDate × Record) : List String :=
  [Record.get p.2.2 "Property Name", Record.get p.2.2 "Unit Name",
   Record.get p.2.2 "Tenant Name", formatDDMMYYYY p.1,
   formatDDMMYYYY p.2.1, Record.get p.2.2 "Lease Years",
   Record.get p.2.2 "Current Rent"]

/-- Standard column list of the phone-mast csv, used by the concrete
witness datasets. -/
def stdHeaders : List String :=
  ["Property Name", "Property Address", "Unit Name", "Tenant Name",
   "Lease Start Date", "Lease End Date", "Lease Years", "Current Rent"]

/-- A record whose Lease Years parses but whose Current Rent does not. -/
def rowBadRent : Record :=
  [("Property Name", "Farmhouse 9"), ("Property Address", "Field Q"),
   ("Unit Name", "Unit 9"), ("Tenant Name", "CellWorks Ltd"),
   ("Lease Start Date", "29 Apr 2008"), ("Lease End Date", "28 Apr 2018"),
   ("Lease Years", "15"), ("Current Rent", "abc")]

/-- One-row dataset with a well-formed Lease Years and a malformed
Current Rent. -/
def dsBadRent : Dataset := ⟨stdHeaders, [rowBadRent]⟩

/-- Sample record: rent 700, lease 10 years, Apr 2008 to Apr 2018. -/
def rowA : Record :=
  [("Property Name", "Farmhouse 2"), ("Property Address", "Field X"),
   ("Unit Name", "Unit 2"), ("Tenant Name", "CellWorks Ltd"),
   ("Lease Start Date", "29 Apr 2008"), ("Lease End Date", "28 Apr 2018"),
   ("Lease Years", "10"), ("Current Rent", "700")]

/-- Sample record: rent 500, lease 15 years, Apr 2002 to Apr 2020. -/
def rowB : Record :=
  [("Property Name", "Farmhouse 1"), ("Property Address", "Field Y"),
   ("Unit Name", "Unit 1"), ("Tenant Name", "CellWorks Ltd"),
   ("Lease Start Date", "29 Apr 2002"), ("Lease End Date", "28 Apr 2020"),
   ("Lease Years", "15"), ("Current Rent", "500")]

/-- Sample record: rent 999.99, lease 15 years, Dec 2019 to Dec 2021. -/
def rowC : Record :=
  [("Property Name", "Farmhouse 3"), ("Property Address", "Field Z"),
   ("Unit Name", "Unit 3"), ("Tenant Name", "CellWorks Ltd"),
   ("Lease Start Date", "01 Dec 2019"), ("Lease End Date", "01 Dec 2021"),
   ("Lease Years", "15"), ("Current Rent", "999.99")]

/-- Three-row sample dataset mirroring the repository's test fixture. -/
def dsSample : Dataset := ⟨stdHeaders, [rowA, rowB, rowC]⟩

/-- The sample rows decorated with their parsed rent values. -/
def sampleKeyed : List (DecVal × Record) :=
  [(⟨700, 0⟩, rowA), (⟨500, 0⟩, rowB), (⟨99999, 2⟩, rowC)]

/-- The lease-years result the sample dataset produces for target 15. -/
def sampleLeaseResult : LeaseYearsResult :=
  { table := [Record.values rowB, Record.values rowC],
    headers := stdHeaders,
    total_rent := [[⟨149999, 2⟩]] }

/-- A record whose Lease Years does not parse as an integer. -/
def rowBadYears : Record :=
  [("Property Name", "Farmhouse 8"), ("Property Address", "Field W"),
   ("Unit Name", "Unit 8"), ("Tenant Name", "CellWorks Ltd"),
   ("Lease Start Date", "29 Apr 2008"), ("Lease End Date", "28 Apr 2018"),
   ("Lease Years", "ten"), ("Current Rent", "700")]

/-- One-row dataset with a malformed Lease Years field. -/
def dsBadYears : Dataset := ⟨stdHeaders, [rowBadYears]⟩

/-- A record whose lease starts outside the sample query range and whose
only malformed field is the never-range-compared Lease End Date. -/
def rowBadEnd : Record :=
  [("Property Name", "Farmhouse 7"), ("Property Address", "Field V"),
   ("Unit Name", "Unit 7"), ("Tenant Name", "CellWorks Ltd"),
   ("Lease Start Date", "01 Jan 1990"), ("Lease End Date", "garbage"),
   ("Lease Years", "10"), ("Current Rent", "700")]

/-- Two-row dataset whose second record has a malformed Lease End Date. -/
def dsBadEnd : Dataset := ⟨stdHeaders, [rowA, rowBadEnd]⟩

/-- A mapM over Option fails as soon as any element fails. -/
theorem mapM_eq_none_of_mem {α β : Type _} (f : α → Option β) :
    ∀ (l : List α) (x : α), x ∈ l → f x = none → l.mapM f = none := by
  intro l
  induction l with
  | nil => intro x hx; cases hx
  | cons a t ih =>
    intro x hx hfx
    rw [List.mapM_cons]
    rcases List.mem_cons.mp hx with h | h
    · rw [h] at hfx
      rw [hfx]
      rfl
    · cases hfa : f a with
      | none => rfl
      | some b =>
        rw [ih x h hfx]
        rfl

/-- A mapM over Option succeeds when every element succeeds. -/
theorem mapM_eq_some_of_forall {α β : Type _} (f : α → Option β) :
    ∀ l : List α, (∀ x ∈ l, (f x).isSome) → ∃ ys, l.mapM f = some ys := by
  intro l
  induction l with
  | nil => intro _; exact ⟨[], rfl⟩
  | cons a t ih =>
    intro h
    obtain ⟨b, hb⟩ := Option.isSome_iff_exists.mp (h a (List.mem_cons_self a t))
    obtain ⟨ys, hys⟩ := ih (fun x hx => h x (List.mem_cons_of_mem a hx))
    refine ⟨b :: ys, ?_⟩
    rw [List.mapM_cons, hb, hys]
    rfl

/-- Decorating each element with a successfully computed key keeps the
elements, in order, and records the key of each element. -/
theorem mapM_keyed_some {α β : Type _} (g : α → Option β) :
    ∀ (rows : List α) (keyed : List (β × α)),
      rows.mapM (fun r => (g r).map (fun q => (q, r))) = some keyed →
      keyed.map Prod.snd = rows ∧ ∀ p ∈ keyed, g p.2 = some p.1 := by
  intro rows
  induction rows with
  | nil =>
    intro keyed h
    simp only [List.mapM_nil, pure] at h
    cases h
    exact ⟨rfl, fun p hp => absurd hp (List.not_mem_nil p)⟩
  | cons a t ih =>
    intro keyed h
    rw [List.mapM_cons] at h
    cases hga : g a with
    | none => rw [hga] at h; cases h
    | some q =>
      rw [hga] at h
      cases hmt : t.mapM (fun r => (g r).map (fun q => (q, r))) with
      | none => rw [hmt] at h; cases h
      | some tk =>
        rw [hmt] at h
        simp only [Option.map_some, Option.bind_some, Option.bind_eq_bind, pure] at h
        cases h
        obtain ⟨hmap, hkeys⟩ := ih tk hmt
        constructor
        · simp [hmap]
        · intro p hp
          rcases List.mem_cons.mp hp with h | h
          · rw [h]
            exact hga
          · exact hkeys p h

/-- Filtering an ordered insertion: when the predicate only accepts values
that compare (both ways) with a, the accepted part of the list is a
followed by the accepted part of the original list whenever a is accepted,
and is unchanged otherwise. -/
theorem filter_orderedInsert {α : Type _} (r : α → α → Prop) [DecidableRel r] (p : α → Bool)
    (h : ∀ a b, p a = true → p b = true → r a b) (a : α) :
    ∀ l : List α, (l.orderedInsert r a).filter p =
      if p a then a :: l.filter p else l.filter p := by
  intro l
  induction l with
  | nil =>
    by_cases hpa : p a = true
    · simp [List.orderedInsert, List.filter_cons, hpa]
    · simp [List.orderedInsert, List.filter_cons, hpa]
  | cons b t ih =>
    by_cases hab : r a b
    · rw [List.orderedInsert, if_pos hab]
      by_cases hpa : p a = true
      · simp [List.filter_cons, hpa]
      · simp [List.filter_cons, hpa]
    · rw [List.orderedInsert, if_neg hab]
      rw [List.filter_cons]
      by_cases hpb : p b = true
      · rw [if_pos hpb, ih]
        by_cases hpa : p a = true
        · exact absurd (h a b hpa hpb) hab
        · rw [if_neg hpa, if_neg hpa, List.filter_cons, if_pos hpb]
      · rw [if_neg hpb, ih]
        by_cases hpa : p a = true
        · rw [if_pos hpa, if_pos hpa, List.filter_cons, if_neg hpb]
        · rw [if_neg hpa, if_neg hpa, List.filter_cons, if_neg hpb]

/-- Stability of insertion sort, stated through filtering: a predicate
that only accepts values tied under the order picks out the same
subsequence, in the same relative order, before and after sorting. -/
theorem filter_insertionSort {α : Type _} (r : α → α → Prop) [DecidableRel r] (p : α → Bool)
    (h : ∀ a b, p a = true → p b = true → r a b) :
    ∀ l : List α, (l.insertionSort r).filter p = l.filter p := by
  intro l
  induction l with
  | nil => rfl
  | cons a t ih =>
    rw [List.insertionSort, filter_orderedInsert r p h, ih, List.filter_cons]

/-- A DecVal comparison holds exactly when the denoted rationals compare. -/
theorem DecVal.le_iff_toRat (a b : DecVal) : a.le b ↔ a.toRat ≤ b.toRat := by
  unfold DecVal.le DecVal.toRat
  rw [div_le_div_iff₀ (by positivity) (by positivity)]
  constructor
  · intro h
    exact_mod_cast h
  · intro h
    exact_mod_cast h

/-- Exact addition of decimal values agrees with rational addition. -/
theorem DecVal.add_toRat (a b : DecVal) : (a.add b).toRat = a.toRat + b.toRat := by
  simp only [DecVal.add, DecVal.toRat]
  have ha : ((10 : ℚ) ^ a.exp) ≠ 0 := by positivity
  have hb : ((10 : ℚ) ^ b.exp) ≠ 0 := by positivity
  push_cast
  rw [pow_add]
  field_simp

/-- The decimal zero denotes the rational zero. -/
theorem DecVal.zero_toRat : DecVal.zero.toRat = 0 := by
  simp [DecVal.zero, DecVal.toRat]

/-- Folding decimal addition computes the exact rational sum. -/
theorem DecVal.foldl_add_toRat :
    ∀ (l : List DecVal) (acc : DecVal),
      (l.foldl DecVal.add acc).toRat = acc.toRat + (l.map DecVal.toRat).sum := by
  intro l
  induction l with
  | nil => intro acc; simp
  | cons d t ih =>
    intro acc
    rw [List.foldl_cons, ih, DecVal.add_toRat, List.map_cons, List.sum_cons]
    ring

/-- Membership in the first-occurrence dedup with an exclusion list. -/
theorem mem_firstDedupAux :
    ∀ (l : List String) (seen : List String) (x : String),
      x ∈ firstDedupAux seen l ↔ x ∈ l ∧ x ∉ seen := by
  intro l
  induction l with
  | nil => intro seen x; simp [firstDedupAux]
  | cons t rest ih =>
    intro seen x
    by_cases hts : t ∈ seen
    · rw [firstDedupAux, if_pos hts, ih]
      constructor
      · intro ⟨h1, h2⟩
        exact ⟨List.mem_cons_of_mem t h1, h2⟩
      · intro ⟨h1, h2⟩
        rcases List.mem_cons.mp h1 with h | h
        · exact absurd (h ▸ hts) h2
        · exact ⟨h, h2⟩
    · rw [firstDedupAux, if_neg hts]
      constructor
      · intro hx
        rcases List.mem_cons.mp hx with h | h
        · exact ⟨h ▸ List.mem_cons_self t rest, h ▸ hts⟩
        · obtain ⟨h1, h2⟩ := (ih (t :: seen) x).mp h
          exact ⟨List.mem_cons_of_mem t h1,
                 fun hc => h2 (List.mem_cons_of_mem t hc)⟩
      · intro ⟨h1, h2⟩
        rcases List.mem_cons.mp h1 with h | h
        · exact h ▸ List.mem_cons_self t _
        · by_cases hxt : x = t
          · exact hxt ▸ List.mem_cons_self t _
          · exact List.mem_cons_of_mem t ((ih (t :: seen) x).mpr
              ⟨h, fun hc => (List.mem_cons.mp hc).elim hxt h2⟩)

/-- The first-occurrence dedup has no duplicates. -/
theorem nodup_firstDedupAux :
    ∀ (l : List String) (seen : List String), (firstDedupAux seen l).Nodup := by
  intro l
  induction l with
  | nil => intro seen; simp [firstDedupAux]
  | cons t rest ih =>
    intro seen
    by_cases hts : t ∈ seen
    · rw [firstDedupAux, if_pos hts]
      exact ih seen
    · rw [firstDedupAux, if_neg hts]
      refine List.nodup_cons.mpr ⟨?_, ih (t :: seen)⟩
      intro hc
      exact ((mem_firstDedupAux rest (t :: seen) t).mp hc).2 (List.mem_cons_self t seen)

/-- Membership in the first-occurrence dedup is membership in the list. -/
theorem mem_firstDedup (l : List String) (x : String) : x ∈ firstDedup l ↔ x ∈ l := by
  rw [firstDedup, mem_firstDedupAux]
  simp

/-- The first-occurrence dedup has no duplicates. -/
theorem nodup_firstDedup (l : List String) : (firstDedup l).Nodup :=
  nodup_firstDedupAux l []

/-- Inversion of the per-record date parsing step. -/
theorem parseRecordDates_eq_some (r : Record) (p : ArrowDate × ArrowDate × Record) :
    parseRecordDates r = some p ↔
      leaseStartOf r = some p.1 ∧ leaseEndOf r = some p.2.1 ∧ p.2.2 = r := by
  unfold parseRecordDates
  cases hs : leaseStartOf r with
  | none => simp
  | some s =>
    cases he : leaseEndOf r with
    | none => simp
    | some e =>
      simp only [Option.some.injEq]
      constructor
      · intro h
        rw [← h]
        exact ⟨rfl, rfl, rfl⟩
      · intro ⟨h1, h2, h3⟩
        cases p with
        | mk ps prest =>
          cases prest with
          | mk pe pr =>
            simp only at h1 h2 h3
            cases h1
            cases h2
            cases h3
            rfl

/-- The per-record date parsing step fails exactly when either date field
fails to parse. -/
theorem parseRecordDates_eq_none (r : Record) :
    parseRecordDates r = none ↔ leaseStartOf r = none ∨ leaseEndOf r = none := by
  unfold parseRecordDates
  cases hs : leaseStartOf r with
  | none => simp
  | some s =>
    cases he : leaseEndOf r with
    | none => simp
    | some e => simp

/-- Date comparison is reflexive. -/
theorem ArrowDate.le_refl (d : ArrowDate) : ArrowDate.le d d = true := by
  simp [ArrowDate.le]

/-- C7: when either range bound fails to parse as a year-month-day date,
the lease-window query fails with the range-bound error, whatever the
records hold: the bounds are checked before any record is parsed or
tested, so no filtering happens and no partial row table is produced. -/
theorem window_bad_range_bound_fails_before_filtering (ds : Dataset) (b1 b2 : String)
    (h : parseYMD b1 = none ∨ parseYMD b2 = none) :
    get_rental_data_for_lease_between_start_and_end_dates ds (b1, b2) =
      Except.error MastErr.badRangeBound := by
  unfold get_rental_data_for_lease_between_start_and_end_dates
  cases h1 : parseYMD b1 with
  | none => rfl
  | some d1 =>
    rcases h with hc | hc
    · rw [h1] at hc
      cases hc
    · rw [hc]

/-- C9: the lease-window query parses both date fields of every record
before any filtering, so one malformed date anywhere in the dataset, the
never-compared Lease End Date field included, fails the whole call with
the record-date error and yields no rows, even when the record's lease
start lies outside the requested range. -/
theorem window_record_date_failure_fatal (ds : Dataset) (b1 b2 : String) (r : Record)
    (hb1 : (parseYMD b1).isSome) (hb2 : (parseYMD b2).isSome)
    (hr : r ∈ ds.rows) (hbad : leaseStartOf r = none ∨ leaseEndOf r = none) :
    get_rental_data_for_lease_between_start_and_end_dates ds (b1, b2) =
      Except.error MastErr.badRecordDate := by
  obtain ⟨d1, hd1⟩ := Option.isSome_iff_exists.mp hb1
  obtain ⟨d2, hd2⟩ := Option.isSome_iff_exists.mp hb2
  have hnone : ds.rows.mapM parseRecordDates = none :=
    mapM_eq_none_of_mem parseRecordDates ds.rows r hr
      ((parseRecordDates_eq_none r).mpr hbad)
  unfold get_rental_data_for_lease_between_start_and_end_dates
  rw [hd1, hd2, hnone]

/-- C10: called with a negative item count, the top-N selection neither
fails nor necessarily returns the empty table: Python slice semantics keep
all records except the last |N|, that is the first
max(0, length - |N|) rows (truncated subtraction), headers unchanged. -/
theorem get_top_n_negative_slice (data_set : List Record) (num_of_items : ℤ)
    (h : num_of_items < 0) :
    get_top_n_items_from_list_data data_set num_of_items =
      { table := (data_set.take (data_set.length - (-num_of_items).toNat)).map projectRentRow,
        headers := ["Property Name", "Unit Name", "Tenant Name", "Current Rent"] } := by
  unfold get_top_n_items_from_list_data pySliceTo
  rw [if_neg (not_le.mpr h)]

/-- C8: the date reinterpretation inside the lease-window query is
query-local: run as a state transformer over the only shared state (the
csv file every query re-reads), it leaves that state unchanged, so each
of the other three queries returns the same result whether or not the
lease-window query ran before it. -/
theorem window_query_mutation_does_not_leak (s : ProgState) (range : String × String)
    (descending : Bool) (n : ℤ) (Y : ℤ) :
    (runWindowQuery s range).2 = s ∧
    read_and_sort_csv_data_by_current_rent (runWindowQuery s range).2.csvFile descending =
      read_and_sort_csv_data_by_current_rent s.csvFile descending ∧
    (read_and_sort_csv_data_by_current_rent (runWindowQuery s range).2.csvFile false).map
        (fun l => get_top_n_items_from_list_data l n) =
      (read_and_sort_csv_data_by_current_rent s.csvFile false).map
        (fun l => get_top_n_items_from_list_data l n) ∧
    get_records_that_match_number_of_lease_years (runWindowQuery s range).2.csvFile Y =
      get_records_that_match_number_of_lease_years s.csvFile Y ∧
    get_tenant_name_and_mast_count (runWindowQuery s range).2.csvFile =
      get_tenant_name_and_mast_count s.csvFile :=
  ⟨rfl, rfl, rfl, rfl, rfl⟩

/-- C6: a required field that fails to convert is fatal for the query and
never silently skipped or defaulted: an unparseable Current Rent anywhere
fails the rent sort, an unparseable Lease Years anywhere fails the
lease-duration match, an unparseable Current Rent on a matched record
fails the lease-duration total, and an unparseable date field on any
record fails the lease-window query. -/
theorem parse_failure_is_fatal :
    (∀ (ds : Dataset) (descending : Bool) (r : Record), r ∈ ds.rows →
       currentRentKey r = none →
       read_and_sort_csv_data_by_current_rent ds descending = none) ∧
    (∀ (ds : Dataset) (Y : ℤ) (r : Record), r ∈ ds.rows →
       leaseYearsKey r = none →
       get_records_that_match_number_of_lease_years ds Y = none) ∧
    (∀ (ds : Dataset) (Y : ℤ) (r : Record), r ∈ ds.rows →
       leaseYearsKey r = some Y → currentRentKey r = none →
       get_records_that_match_number_of_lease_years ds Y = none) ∧
    (∀ (ds : Dataset) (range : String × String) (r : Record), r ∈ ds.rows →
       leaseStartOf r = none ∨ leaseEndOf r = none →
       ∃ e, get_rental_data_for_lease_between_start_and_end_dates ds range =
         Except.error e) := by
  refine ⟨?_, ?_, ?_, ?_⟩
  · intro ds descending r hr hkey
    have hnone : rentKeyed ds.rows = none :=
      mapM_eq_none_of_mem _ ds.rows r hr (by rw [hkey]; rfl)
    unfold read_and_sort_csv_data_by_current_rent
    rw [hnone]
    rfl
  · intro ds Y r hr hkey
    have hnone : ds.rows.mapM (fun r => (leaseYearsKey r).map (fun y => (y, r))) = none :=
      mapM_eq_none_of_mem _ ds.rows r hr (by rw [hkey]; rfl)
    unfold get_records_that_match_number_of_lease_years
    rw [hnone]
  · intro ds Y r hr hY hrent
    unfold get_records_that_match_number_of_lease_years
    cases hk : ds.rows.mapM (fun r => (leaseYearsKey r).map (fun y => (y, r))) with
    | none => rfl
    | some keyed =>
      obtain ⟨hmap, hkeys⟩ := mapM_keyed_some _ ds.rows keyed hk
      have hrk : r ∈ keyed.map Prod.snd := hmap ▸ hr
      obtain ⟨p, hp, hpr⟩ := List.mem_map.mp hrk
      have hpY : p.1 = Y := by
        have := hkeys p hp
        rw [hpr, hY] at this
        exact (Option.some.injEq _ _).mp this.symm
      have hmem : r ∈ (keyed.filter (fun p => p.1 == Y)).map Prod.snd := by
        refine List.mem_map.mpr ⟨p, List.mem_filter.mpr ⟨hp, ?_⟩, hpr⟩
        simp [hpY]
      have hnone : ((keyed.filter (fun p => p.1 == Y)).map Prod.snd).mapM currentRentKey
          = none :=
        mapM_eq_none_of_mem _ _ r hmem hrent
      simp only [hnone]
  · intro ds range r hr hbad
    unfold get_rental_data_for_lease_between_start_and_end_dates
    cases h1 : parseYMD range.1 with
    | none => exact ⟨MastErr.badRangeBound, rfl⟩
    | some d1 =>
      cases h2 : parseYMD range.2 with
      | none => exact ⟨MastErr.badRangeBound, rfl⟩
      | some d2 =>
        have hnone : ds.rows.mapM parseRecordDates = none :=
          mapM_eq_none_of_mem parseRecordDates ds.rows r hr
            ((parseRecordDates_eq_none r).mpr hbad)
        rw [hnone]
        exact ⟨MastErr.badRecordDate, rfl⟩

/-- The rows the code keeps in the lease-years query are the records
whose Lease Years parses to Y, in file order. -/
theorem lease_years_filter_eq (ds : Dataset) (Y : ℤ) (keyed : List (ℤ × Record))
    (hk : ds.rows.mapM (fun r => (leaseYearsKey r).map (fun y => (y, r))) = some keyed) :
    (keyed.filter (fun p => p.1 == Y)).map Prod.snd = matchedLeaseRows ds Y := by
  obtain ⟨hmap, hkeys⟩ := mapM_keyed_some _ ds.rows keyed hk
  unfold matchedLeaseRows
  rw [← hmap, List.filter_map]
  have hcong : keyed.filter ((fun r => leaseYearsKey r == some Y) ∘ Prod.snd)
      = keyed.filter (fun p => p.1 == Y) := by
    refine List.filter_congr ?_
    intro p hp
    simp [hkeys p hp]
  rw [hcong]

/-- C2 counterexample: a dataset in which every Lease Years field parses
as an integer, whose single record matches the target 15, yet the query
returns nothing at all — the matched record's Current Rent does not parse
as a decimal, so the total-rent computation aborts the whole call — so
the returned row table cannot contain exactly the matching records. -/
theorem lease_years_claim_counterexample :
    (∀ r ∈ dsBadRent.rows, (leaseYearsKey r).isSome) ∧
    matchedLeaseRows dsBadRent 15 = [rowBadRent] ∧
    get_records_that_match_number_of_lease_years dsBadRent 15 = none := by
  refine ⟨?_, by decide, by decide⟩
  intro r hr
  rcases List.mem_cons.mp hr with h | h
  · rw [h]
    decide
  · cases h

/-- C2 (amended): when every Lease Years field parses as an integer and
additionally every matched record's Current Rent parses as a decimal, the
lease-years query returns a result whose row table holds exactly the
records whose Lease Years parses to the target, in original file order,
as full unprojected rows with every field verbatim, whose headers are the
dataset's column order, and which is the empty sequence (not an error)
when nothing matches. -/
theorem lease_years_match_rows (ds : Dataset) (Y : ℤ)
    (hyears : ∀ r ∈ ds.rows, (leaseYearsKey r).isSome)
    (hrents : ∀ r ∈ matchedLeaseRows ds Y, (currentRentKey r).isSome) :
    ∃ res : LeaseYearsResult,
      get_records_that_match_number_of_lease_years ds Y = some res ∧
      res.table = (matchedLeaseRows ds Y).map Record.values ∧
      res.headers = ds.headers ∧
      (matchedLeaseRows ds Y = [] → res.table = []) := by
  obtain ⟨keyed, hk⟩ := mapM_eq_some_of_forall
    (fun r => (leaseYearsKey r).map (fun y => (y, r))) ds.rows
    (fun r hr => by
      obtain ⟨y, hy⟩ := Option.isSome_iff_exists.mp (hyears r hr)
      simp [hy])
  have hfilter := lease_years_filter_eq ds Y keyed hk
  obtain ⟨rents, hrents2⟩ := mapM_eq_some_of_forall currentRentKey (matchedLeaseRows ds Y)
    hrents
  refine ⟨{ table := (matchedLeaseRows ds Y).map Record.values,
            headers := ds.headers,
            total_rent := [[rents.foldl DecVal.add DecVal.zero]] }, ?_, rfl, rfl, ?_⟩
  · unfold get_records_that_match_number_of_lease_years
    rw [hk]
    simp only [hfilter, hrents2]
  · intro hempty
    rw [hempty]
    rfl

/-- C3: whenever the lease-years query returns a result, its single-cell
total equals the exact decimal sum of the Current Rent values of exactly
the rows it returns (none besides), and denotes 0 when no row matches;
the total sits in its own single-cell field apart from the row table. -/
theorem lease_years_total_exact (ds : Dataset) (Y : ℤ) (res : LeaseYearsResult)
    (h : get_records_that_match_number_of_lease_years ds Y = some res) :
    ∃ (rents : List DecVal) (total : DecVal),
      (matchedLeaseRows ds Y).mapM currentRentKey = some rents ∧
      res.table = (matchedLeaseRows ds Y).map Record.values ∧
      res.total_rent = [[total]] ∧
      total.toRat = (rents.map DecVal.toRat).sum ∧
      (matchedLeaseRows ds Y = [] → total.toRat = 0) := by
  unfold get_records_that_match_number_of_lease_years at h
  cases hk : ds.rows.mapM (fun r => (leaseYearsKey r).map (fun y => (y, r))) with
  | none => rw [hk] at h; cases h
  | some keyed =>
    rw [hk] at h
    have hfilter := lease_years_filter_eq ds Y keyed hk
    simp only [hfilter] at h
    cases hrents : (matchedLeaseRows ds Y).mapM currentRentKey with
    | none => rw [hrents] at h; cases h
    | some rents =>
      rw [hrents] at h
      simp only [Option.some.injEq] at h
      refine ⟨rents, rents.foldl DecVal.add DecVal.zero, rfl, ?_, ?_, ?_, ?_⟩
      · rw [← h]
      · rw [← h]
      · rw [DecVal.foldl_add_toRat, DecVal.zero_toRat, zero_add]
      · intro hempty
        rw [hempty] at hrents
        have : rents = [] := by
          simp only [List.mapM_nil, pure, Option.some.injEq] at hrents
          exact hrents.symm
        rw [DecVal.foldl_add_toRat, DecVal.zero_toRat, zero_add, this]
        rfl

/-- The sum of the occurrence counts of the distinct values of a list is
the length of the list. -/
theorem sum_counts_firstDedup (l : List String) :
    ((firstDedup l).map (fun t => l.count t)).sum = l.length := by
  rw [← List.sum_toFinset _ (nodup_firstDedup l)]
  have hset : (firstDedup l).toFinset = l.toFinset := by
    apply Finset.ext
    intro x
    rw [List.mem_toFinset, List.mem_toFinset, mem_firstDedup]
  rw [hset]
  have hcount : ∀ x ∈ l.toFinset, l.count x = Multiset.count x (↑l : Multiset String) := by
    intro x _
    rw [Multiset.coe_count]
  rw [Finset.sum_congr rfl hcount]
  have : l.toFinset = (↑l : Multiset String).toFinset := rfl
  rw [this, Multiset.toFinset_sum_count_eq, Multiset.coe_card]

/-- C4: the tenant census has exactly one row per distinct literal Tenant
Name string (no case or whitespace normalization: any two different
strings form different groups), each row pairing the string with its
number of occurrences, rows in first-occurrence order; the counts sum to
the dataset size and no zero-count tenant appears. -/
theorem tenant_census_correct (ds : Dataset) :
    (get_tenant_name_and_mast_count ds).table =
      (firstDedup (tenantNames ds)).map (fun t => (t, (tenantNames ds).count t)) ∧
    ((get_tenant_name_and_mast_count ds).table.map Prod.fst).Nodup ∧
    (∀ t : String,
      t ∈ (get_tenant_name_and_mast_count ds).table.map Prod.fst ↔ t ∈ tenantNames ds) ∧
    (∀ p ∈ (get_tenant_name_and_mast_count ds).table,
      p.2 = (tenantNames ds).count p.1 ∧ 0 < p.2) ∧
    ((get_tenant_name_and_mast_count ds).table.map Prod.snd).sum = ds.rows.length ∧
    (get_tenant_name_and_mast_count ds).headers = ["Tenant Name", "Number of Masts"] := by
  have htable : (get_tenant_name_and_mast_count ds).table =
      (firstDedup (tenantNames ds)).map (fun t => (t, (tenantNames ds).count t)) := rfl
  have hfst : (get_tenant_name_and_mast_count ds).table.map Prod.fst
      = firstDedup (tenantNames ds) := by
    rw [htable, List.map_map]
    have hid : (Prod.fst ∘ fun t => (t, (tenantNames ds).count t)) = (id : String → String) :=
      rfl
    rw [hid, List.map_id]
  refine ⟨htable, ?_, ?_, ?_, ?_, rfl⟩
  · rw [hfst]
    exact nodup_firstDedup (tenantNames ds)
  · intro t
    rw [hfst]
    exact mem_firstDedup (tenantNames ds) t
  · intro p hp
    rw [htable] at hp
    obtain ⟨t, ht, hpt⟩ := List.mem_map.mp hp
    rw [← hpt]
    refine ⟨rfl, List.count_pos_iff.mpr ?_⟩
    exact (mem_firstDedup (tenantNames ds) t).mp ht
  · rw [htable, List.map_map]
    have : (Prod.snd ∘ fun t => (t, (tenantNames ds).count t))
        = fun t => (tenantNames ds).count t := rfl
    rw [this, sum_counts_firstDedup]
    unfold tenantNames
    rw [List.length_map]

/-- Filtering then projecting the date-decorated rows built by the code
gives the range filter over the records themselves, projected with the
reformatted dates, in file order. -/
theorem window_filter_eq (d1 d2 : ArrowDate) :
    ∀ (rows : List Record) (parsed : List (ArrowDate × ArrowDate × Record)),
      rows.mapM parseRecordDates = some parsed →
      (parsed.filter (fun p => ArrowDate.le d1 p.1 && ArrowDate.le p.1 d2)).map windowCodeRow
        = (rows.filter (startInRange d1 d2)).map windowSpecRow := by
  intro rows
  induction rows with
  | nil =>
    intro parsed h
    simp only [List.mapM_nil, pure, Option.some.injEq] at h
    rw [← h]
    rfl
  | cons r t ih =>
    intro parsed h
    rw [List.mapM_cons] at h
    cases hr : parseRecordDates r with
    | none => rw [hr] at h; cases h
    | some p =>
      rw [hr] at h
      cases hmt : t.mapM parseRecordDates with
      | none => rw [hmt] at h; cases h
      | some pt =>
        rw [hmt] at h
        have h2 : some (p :: pt) = some parsed := h
        rw [Option.some.injEq] at h2
        subst h2
        obtain ⟨h1, h2, h3⟩ := (parseRecordDates_eq_some r p).mp hr
        have hpred : (ArrowDate.le d1 p.1 && ArrowDate.le p.1 d2) = startInRange d1 d2 r := by
          unfold startInRange
          rw [h1]
        have hrow : windowCodeRow p = windowSpecRow r := by
          unfold windowCodeRow windowSpecRow
          rw [h1, h2, h3]
          rfl
        rw [List.filter_cons, List.filter_cons, hpred]
        cases hc : startInRange d1 d2 r with
        | true =>
          rw [if_pos rfl, if_pos rfl, List.map_cons, List.map_cons, hrow, ih pt hmt]
        | false =>
          rw [if_neg Bool.false_ne_true, if_neg Bool.false_ne_true, ih pt hmt]

/-- C5: when both range bounds parse as year-month-day dates and every
record's two date fields parse as DD Mon YYYY dates, the lease-window
query returns exactly the records whose parsed Lease Start Date lies in
the closed range, in original file order, projected to the seven output
columns with both dates reformatted to DD/MM/YYYY; the closed-range test
is inclusive: a record starting exactly on either bound matches. -/
theorem window_match_correct (ds : Dataset) (b1 b2 : String) (d1 d2 : ArrowDate)
    (hb1 : parseYMD b1 = some d1) (hb2 : parseYMD b2 = some d2)
    (hdates : ∀ r ∈ ds.rows, (leaseStartOf r).isSome ∧ (leaseEndOf r).isSome) :
    get_rental_data_for_lease_between_start_and_end_dates ds (b1, b2) =
      Except.ok { table := (ds.rows.filter (startInRange d1 d2)).map windowSpecRow,
                  headers := windowHeaders } ∧
    (ArrowDate.le d1 d2 = true → ∀ r ∈ ds.rows,
      (leaseStartOf r = some d1 ∨ leaseStartOf r = some d2) →
      startInRange d1 d2 r = true) := by
  constructor
  · obtain ⟨parsed, hparsed⟩ := mapM_eq_some_of_forall parseRecordDates ds.rows
      (fun r hr => by
        obtain ⟨hs, he⟩ := hdates r hr
        obtain ⟨s, hs2⟩ := Option.isSome_iff_exists.mp hs
        obtain ⟨e, he2⟩ := Option.isSome_iff_exists.mp he
        rw [Option.isSome_iff_exists]
        exact ⟨(s, e, r), (parseRecordDates_eq_some r (s, e, r)).mpr ⟨hs2, he2, rfl⟩⟩)
    unfold get_rental_data_for_lease_between_start_and_end_dates
    rw [hb1, hb2, hparsed]
    simp only [Except.ok.injEq]
    rw [TableResult.mk.injEq]
    refine ⟨?_, rfl⟩
    exact window_filter_eq d1 d2 ds.rows parsed hparsed
  · intro hle r _ hstart
    unfold startInRange
    rcases hstart with h | h
    · rw [h]
      simp [ArrowDate.le_refl, hle]
    · rw [h]
      simp [ArrowDate.le_refl, hle]

/-- C1: when every Current Rent parses as a decimal, the rent sort
returns a list S that is THE stable ascending sort of the dataset by
numeric rent: a permutation of the rows, ascending in rent value, with
the rows of any single rent value kept in original file order; and for
every N at least 0 the top-N selection's table is the first N rows of S
projected to the four output columns with each rent kept as its original
unmodified string, so N = 0 gives an empty table with the four headers
intact and N at least the dataset size gives all of S projected. -/
theorem rent_rank_correct (ds : Dataset) (keyed : List (DecVal × Record))
    (h : rentKeyed ds.rows = some keyed) :
    ∃ S : List Record,
      read_and_sort_csv_data_by_current_rent ds false = some S ∧
      S.Perm ds.rows ∧
      S.Pairwise (fun a b => ∀ qa qb, currentRentKey a = some qa →
        currentRentKey b = some qb → qa.toRat ≤ qb.toRat) ∧
      (∀ q : ℚ,
        S.filter (fun rc => decide ((currentRentKey rc).map DecVal.toRat = some q)) =
          ds.rows.filter
            (fun rc => decide ((currentRentKey rc).map DecVal.toRat = some q))) ∧
      (∀ n : ℤ, 0 ≤ n → get_top_n_items_from_list_data S n =
        { table := (S.take n.toNat).map projectRentRow,
          headers := ["Property Name", "Unit Name", "Tenant Name", "Current Rent"] }) ∧
      (get_top_n_items_from_list_data S 0).table = [] ∧
      (∀ n : ℤ, (ds.rows.length : ℤ) ≤ n →
        (get_top_n_items_from_list_data S n).table = S.map projectRentRow) := by
  obtain ⟨hmap, hkeys⟩ := mapM_keyed_some currentRentKey ds.rows keyed h
  have hmemK : ∀ x ∈ keyed.insertionSort rentPairLe, currentRentKey x.2 = some x.1 :=
    fun x hx => hkeys x ((List.mem_insertionSort rentPairLe).mp hx)
  have hlenS : ((keyed.insertionSort rentPairLe).map Prod.snd).length = ds.rows.length := by
    rw [List.length_map, List.length_insertionSort, ← hmap, List.length_map]
  refine ⟨(keyed.insertionSort rentPairLe).map Prod.snd, ?_, ?_, ?_, ?_, ?_, ?_, ?_⟩
  · unfold read_and_sort_csv_data_by_current_rent
    rw [h]
    rfl
  · have hperm := (List.perm_insertionSort rentPairLe keyed).map Prod.snd
    rw [hmap] at hperm
    exact hperm
  · have hsorted := List.sorted_insertionSort rentPairLe keyed
    rw [List.pairwise_map]
    refine hsorted.imp_of_mem ?_
    intro a b ha hb hab qa qb hqa hqb
    rw [hmemK a ha, Option.some.injEq] at hqa
    rw [hmemK b hb, Option.some.injEq] at hqb
    rw [← hqa, ← hqb]
    exact (DecVal.le_iff_toRat a.1 b.1).mp hab
  · intro q
    have hcond : ∀ a b : DecVal × Record, decide (a.1.toRat = q) = true →
        decide (b.1.toRat = q) = true → rentPairLe a b := by
      intro a b ha hb
      rw [decide_eq_true_iff] at ha hb
      refine (DecVal.le_iff_toRat a.1 b.1).mpr ?_
      rw [ha, hb]
    have hstab := filter_insertionSort rentPairLe (fun pr => decide (pr.1.toRat = q))
      hcond keyed
    have hptwise : ∀ l : List (DecVal × Record),
        (∀ x ∈ l, currentRentKey x.2 = some x.1) →
        l.filter ((fun rc => decide ((currentRentKey rc).map DecVal.toRat = some q))
            ∘ Prod.snd) = l.filter (fun pr => decide (pr.1.toRat = q)) := by
      intro l hl
      refine List.filter_congr ?_
      intro x hx
      rw [Function.comp_apply, decide_eq_decide, hl x hx]
      simp
    rw [← hmap, List.filter_map, List.filter_map,
      hptwise (keyed.insertionSort rentPairLe) hmemK, hptwise keyed hkeys, hstab]
  · intro n hn
    unfold get_top_n_items_from_list_data pySliceTo
    rw [if_pos hn]
  · rfl
  · intro n hlen
    have h0 : (0 : ℤ) ≤ n := le_trans (Int.ofNat_nonneg ds.rows.length) hlen
    show ((pySliceTo _ n).map projectRentRow) = _
    unfold pySliceTo
    rw [if_pos h0]
    rw [List.take_of_length_le]
    rw [hlenS, Int.le_toNat h0]
    exact hlen

/-- Witness for C1 on the three-row sample dataset. -/
theorem rent_rank_correct_witness :
    ∃ S : List Record,
      read_and_sort_csv_data_by_current_rent dsSample false = some S ∧
      S.Perm dsSample.rows ∧
      S.Pairwise (fun a b => ∀ qa qb, currentRentKey a = some qa →
        currentRentKey b = some qb → qa.toRat ≤ qb.toRat) ∧
      (∀ q : ℚ,
        S.filter (fun rc => decide ((currentRentKey rc).map DecVal.toRat = some q)) =
          dsSample.rows.filter
            (fun rc => decide ((currentRentKey rc).map DecVal.toRat = some q))) ∧
      (∀ n : ℤ, 0 ≤ n → get_top_n_items_from_list_data S n =
        { table := (S.take n.toNat).map projectRentRow,
          headers := ["Property Name", "Unit Name", "Tenant Name", "Current Rent"] }) ∧
      (get_top_n_items_from_list_data S 0).table = [] ∧
      (∀ n : ℤ, (dsSample.rows.length : ℤ) ≤ n →
        (get_top_n_items_from_list_data S n).table = S.map projectRentRow) :=
  rent_rank_correct dsSample sampleKeyed (by decide)

/-- Witness for the amended C2 on the three-row sample dataset. -/
theorem lease_years_match_rows_witness :
    ∃ res : LeaseYearsResult,
      get_records_that_match_number_of_lease_years dsSample 15 = some res ∧
      res.table = (matchedLeaseRows dsSample 15).map Record.values ∧
      res.headers = dsSample.headers ∧
      (matchedLeaseRows dsSample 15 = [] → res.table = []) :=
  lease_years_match_rows dsSample 15 (by decide) (by decide)

/-- Witness for C3 on the three-row sample dataset: the 15-year rows are
the 500 and 999.99 rent rows and the total denotes 1499.99. -/
theorem lease_years_total_exact_witness :
    ∃ (rents : List DecVal) (total : DecVal),
      (matchedLeaseRows dsSample 15).mapM currentRentKey = some rents ∧
      sampleLeaseResult.table = (matchedLeaseRows dsSample 15).map Record.values ∧
      sampleLeaseResult.total_rent = [[total]] ∧
      total.toRat = (rents.map DecVal.toRat).sum ∧
      (matchedLeaseRows dsSample 15 = [] → total.toRat = 0) :=
  lease_years_total_exact dsSample 15 sampleLeaseResult (by decide)

/-- Witness for C5 on the three-row sample dataset with the range
2000-01-30 to 2010-12-31. -/
theorem window_match_correct_witness :
    get_rental_data_for_lease_between_start_and_end_dates dsSample
        ("2000-01-30", "2010-12-31") =
      Except.ok
        { table := (dsSample.rows.filter
            (startInRange ⟨2000, 1, 30⟩ ⟨2010, 12, 31⟩)).map windowSpecRow,
          headers := windowHeaders } ∧
    (ArrowDate.le ⟨2000, 1, 30⟩ ⟨2010, 12, 31⟩ = true → ∀ r ∈ dsSample.rows,
      (leaseStartOf r = some ⟨2000, 1, 30⟩ ∨ leaseStartOf r = some ⟨2010, 12, 31⟩) →
      startInRange ⟨2000, 1, 30⟩ ⟨2010, 12, 31⟩ r = true) :=
  window_match_correct dsSample "2000-01-30" "2010-12-31" ⟨2000, 1, 30⟩ ⟨2010, 12, 31⟩
    (by decide) (by decide) (by decide)

/-- Witness for C6: each kind of required-field parse failure makes the
corresponding query fail on a concrete dataset. -/
theorem parse_failure_is_fatal_witness :
    read_and_sort_csv_data_by_current_rent dsBadRent false = none ∧
    get_records_that_match_number_of_lease_years dsBadYears 10 = none ∧
    get_records_that_match_number_of_lease_years dsBadRent 15 = none ∧
    (∃ e, get_rental_data_for_lease_between_start_and_end_dates dsBadEnd
      ("2000-01-30", "2010-12-31") = Except.error e) :=
  ⟨parse_failure_is_fatal.1 dsBadRent false rowBadRent (by decide) (by decide),
   parse_failure_is_fatal.2.1 dsBadYears 10 rowBadYears (by decide) (by decide),
   parse_failure_is_fatal.2.2.1 dsBadRent 15 rowBadRent (by decide) (by decide) (by decide),
   parse_failure_is_fatal.2.2.2 dsBadEnd ("2000-01-30", "2010-12-31") rowBadEnd
     (by decide) (Or.inr (by decide))⟩

/-- Witness for C7: an unparseable first bound yields the range-bound
error even on a dataset that also holds a malformed record date. -/
theorem window_bad_range_bound_witness :
    get_rental_data_for_lease_between_start_and_end_dates dsBadEnd
        ("garbage", "2010-12-31") = Except.error MastErr.badRangeBound :=
  window_bad_range_bound_fails_before_filtering dsBadEnd "garbage" "2010-12-31"
    (Or.inl (by decide))

/-- Witness for C9: a record whose lease start lies outside the range and
whose only malformed field is the Lease End Date still fails the call. -/
theorem window_record_date_failure_witness :
    get_rental_data_for_lease_between_start_and_end_dates dsBadEnd
        ("2000-01-30", "2010-12-31") = Except.error MastErr.badRecordDate :=
  window_record_date_failure_fatal dsBadEnd "2000-01-30" "2010-12-31" rowBadEnd
    (by decide) (by decide) (by decide) (Or.inr (by decide))

/-- Witness for C10: top-N with N = -1 on a three-row list keeps the
first two rows. -/
theorem get_top_n_negative_slice_witness :
    get_top_n_items_from_list_data [rowA, rowB, rowC] (-1) =
      { table := ([rowA, rowB, rowC].take
          ([rowA, rowB, rowC].length - ((-(-1 : ℤ))).toNat)).map projectRentRow,
        headers := ["Property Name", "Unit Name", "Tenant Name", "Current Rent"] } :=
  get_top_n_negative_slice [rowA, rowB, rowC] (-1) (by decide)

end PhoneMast
